import Mathlib

/-!
Shallow embedding of `scripts/validate_structure.py` (repository jlfreif/katheal).

The script loads YAML character files from `characters/`, page files from
`pages/` and an optional `world.yaml`, runs ten validation tests in a fixed
order, prints diagnostics, and exits 0 iff every test returned True.

The embedding models the file system snapshot seen by one run as a `DocSet`:
each file carries its name together with the outcome of `yaml.safe_load`
(`none` models a parse exception; for page files a second level `asDict`
distinguishes a successful parse that is not a mapping, on which `.get`
raises).  Strings, `splitOn`, `replace`, `startsWith`, `endsWith` mirror the
Python string operations used by the script (Python `str.replace` replaces
every occurrence, as does `String.replace`).  Python `set` iteration order is
canonicalised as first-occurrence deduplication; all properties proved about
diagnostics are membership properties, which do not depend on that order.
-/

namespace ValidateStructure

/-- Severity of one printed diagnostic line, matching the helper printers
`error`, `warning`, `info`, `note`, `success` of the script. -/
inductive Sev where
  | errS | warnS | infoS | noteS | okS
deriving DecidableEq, Repr

/-- One diagnostic line: severity plus message text. -/
structure Diag where
  sev : Sev
  msg : String
deriving DecidableEq, Repr

def mkErr (m : String) : Diag := ⟨Sev.errS, m⟩
def mkWarn (m : String) : Diag := ⟨Sev.warnS, m⟩
def mkInfo (m : String) : Diag := ⟨Sev.infoS, m⟩
def mkNote (m : String) : Diag := ⟨Sev.noteS, m⟩
def mkOk (m : String) : Diag := ⟨Sev.okS, m⟩

/-- Result of `yaml.safe_load` on a character file, when it is a mapping:
the fields the validator reads.  `id` is `char_data.get('id')` (string or
absent/null), `name` is `attributes.name`, `story` is `get('story', [])`. -/
structure CharData where
  id : Option String
  name : Option String
  story : List String
deriving DecidableEq, Repr

/-- A file in the characters directory: name and load outcome
(`none` = the `try` block raised: YAML error or the value is not a mapping,
so `char_data.get` raised). -/
structure CharFile where
  name : String
  parsed : Option CharData
deriving DecidableEq, Repr

/-- One scene entry of a page's `scenes` list; the validator only tests key
presence of `visual`, `text` and `page`. -/
structure Scene where
  hasVisual : Bool
  hasText : Bool
  hasPage : Bool
deriving DecidableEq, Repr

/-- A page mapping as read by the validator: `node_type` (absent or null is
`none`), the `scenes` list (`none` = key absent or null), and presence of the
legacy `visual` / `text` keys. -/
structure PageData where
  node_type : Option String
  scenes : Option (List Scene)
  hasVisual : Bool
  hasText : Bool
deriving DecidableEq, Repr

/-- Outcome of a successful `yaml.safe_load` of a page file: `asDict = none`
models a document that parsed but is not a mapping (so `.get` raises). -/
structure PageYaml where
  asDict : Option PageData
deriving DecidableEq, Repr

/-- A file in the pages directory: `parsed = none` models a YAML parse
error. -/
structure PageFile where
  name : String
  parsed : Option PageYaml
deriving DecidableEq, Repr

/-- A node of a world interaction (a mapping in the `nodes` list). -/
structure WNode where
  spread : Option Nat
  typ : Option String
  page_file : Option String
deriving DecidableEq, Repr

/-- A world interaction; `none` entries of the surrounding list model
non-mapping entries, which the script skips. -/
structure Interaction where
  characters : List String
  nodes : List (Option WNode)
deriving DecidableEq, Repr

/-- Parsed `world.yaml` contents: the `interactions` list
(`get('interactions', [])`, with null collapsing to `[]`). -/
structure WorldData where
  interactions : List (Option Interaction)
deriving DecidableEq, Repr

/-- The `world.yaml` file, if present; `parsed = none` models a load
exception. -/
structure WorldFile where
  parsed : Option WorldData
deriving DecidableEq, Repr

/-- The file-system snapshot one validator run sees: the characters
directory (`none` = missing), the pages directory (`none` = missing) and the
optional `world.yaml`. -/
structure DocSet where
  charsDir : Option (List CharFile)
  pagesDir : Option (List PageFile)
  world : Option WorldFile
deriving DecidableEq, Repr

/-- A loaded character record as stored by `load_all_characters`:
the source file name plus the parsed mapping. -/
structure CharInfo where
  file : String
  data : CharData
deriving DecidableEq, Repr

/-- `char_data.get('attributes', {}).get('name', 'Unknown')`. -/
def CharInfo.name (c : CharInfo) : String := c.data.name.getD "Unknown"

/-- The `characters` dict: insertion-ordered map from character id to
record. -/
abbrev Characters : Type := List (String × CharInfo)

/-- `VALID_NODE_TYPES` from the script. -/
def VALID_NODE_TYPES : List String := ["solo", "meeting", "mirrored", "resonant"]

/-- `REQUIRED_SOLO_SPREADS` from the script. -/
def REQUIRED_SOLO_SPREADS : List Nat := [1, 11, 12]

/-!
String primitives.  The script uses `split('-')`, `replace('.yaml','')`,
`startswith`, `endswith`, `in`, `isdigit`, `isalpha` and `int(...)`; they are
embedded here as executable functions over the character list of a `String`,
with Python semantics (`replace` removes every occurrence, `split` keeps
empty segments, `isdigit` requires a non-empty all-digit string).
-/

/-- Python `s.split('-')` on the character list: separators delimit
segments, empty segments are kept. -/
def splitDashChars : List Char → List (List Char)
  | [] => [[]]
  | '-' :: rest => [] :: splitDashChars rest
  | c :: rest =>
      match splitDashChars rest with
      | [] => [[c]]
      | p :: ps => (c :: p) :: ps

/-- Python `s.split('-')`. -/
def pySplitDash (s : String) : List String :=
  (splitDashChars s.data).map String.mk

/-- Python `s.replace('.yaml', '')` on the character list: every
(non-overlapping, left-to-right) occurrence is removed. -/
def replYamlChars : List Char → List Char
  | '.' :: 'y' :: 'a' :: 'm' :: 'l' :: rest => replYamlChars rest
  | c :: rest => c :: replYamlChars rest
  | [] => []

/-- Python `s.replace('.yaml', '')`. -/
def pyRemoveYaml (s : String) : String := String.mk (replYamlChars s.data)

/-- Python `sub in s` on character lists. -/
def listHasSub (sub : List Char) : List Char → Bool
  | [] => sub.isEmpty
  | c :: rest => (sub == (c :: rest).take sub.length) || listHasSub sub rest

/-- Python `sub in s` substring test. -/
def strContains (s sub : String) : Bool := listHasSub sub.data s.data

/-- Python `s.endswith(suf)`. -/
def pyEndsWith (s suf : String) : Bool :=
  s.data.reverse.take suf.data.length == suf.data.reverse

/-- Python `s.startswith(p)`. -/
def pyStartsWith (s p : String) : Bool :=
  s.data.take p.data.length == p.data

/-- Python truthiness of an optional string (`if x:`): present and
non-empty. -/
def pyTruthyStr (s : Option String) : Bool := !(s.getD "").data.isEmpty

/-- `Path.glob('*.yaml')` membership for a file name. -/
def globYaml (name : String) : Bool := pyEndsWith name ".yaml"

/-- Python `str.isdigit` (restricted to ASCII digits). -/
def pyIsDigit (s : String) : Bool := !s.data.isEmpty && s.data.all Char.isDigit

/-- `int(s)` on an all-digit string. -/
def pyToNat (s : String) : Nat :=
  s.data.foldl (fun a c => a * 10 + (c.toNat - 48)) 0

/-- The repeated idiom
`page_id = page.replace('.yaml',''); parts = page_id.split('-');`
`[p for p in parts if len(p) == 2 and p.isalpha()]`. -/
def charCodes (page : String) : List String :=
  let page_id := pyRemoveYaml page
  let parts := pySplitDash page_id
  parts.filter (fun p => p.data.length == 2 && p.data.all Char.isAlpha)

/-- Dict insertion `characters[char_id] = ...`: overwrite in place when the
key exists, else append. -/
def dictInsert (m : Characters) (k : String) (v : CharInfo) : Characters :=
  match m with
  | [] => [(k, v)]
  | (k0, v0) :: rest =>
      if k0 == k then (k, v) :: rest else (k0, v0) :: dictInsert rest k v

/-- Python `key in characters`. -/
def dictContains (m : Characters) (k : String) : Bool :=
  m.any (fun kv => kv.1 == k)

/-- `(pages_dir / name).exists()`. -/
def pageExists (fs : DocSet) (name : String) : Bool :=
  match fs.pagesDir with
  | none => false
  | some files => files.any (fun f => f.name == name)

/-- Look up a page file by name (opening `pages_dir / name`). -/
def findPage (fs : DocSet) (name : String) : Option PageFile :=
  match fs.pagesDir with
  | none => none
  | some files => files.find? (fun f => f.name == name)

/-- First-occurrence deduplication, used to canonicalise the Python `set`
of referenced pages. -/
def dedupAux : List String → List String → List String
  | [], _ => []
  | x :: rest, seen =>
      if seen.contains x then dedupAux rest seen
      else x :: dedupAux rest (x :: seen)

def dedupKeepFirst (l : List String) : List String := dedupAux l []

/-- The set `referenced_pages` built by
`for char: referenced_pages.update(char.story)`. -/
def referencedPages (chars : Characters) : List String :=
  dedupKeepFirst (chars.flatMap (fun c => c.2.data.story))

/-- Sequentially combine per-item check results: or the error flags, append
the diagnostics, in order. -/
def combineChecks : List (Bool × List Diag) → Bool × List Diag
  | [] => (false, [])
  | x :: rest =>
      let r := combineChecks rest
      (x.1 || r.1, x.2 ++ r.2)

/-! ## The loader `load_all_characters` -/

/-- The usable character files: `characters_dir.glob('*.yaml')` minus files
whose name contains `template` or `example`. -/
def usableCharFiles (files : List CharFile) : List CharFile :=
  (files.filter (fun f => globYaml f.name)).filter
    (fun f => !(strContains f.name "template") && !(strContains f.name "example"))

/-- The per-file loop of `load_all_characters`: a load exception reports and
exits immediately; a file with a falsy/absent `id` is silently skipped;
otherwise the record is inserted under its id. -/
def loadCharsLoop : List CharFile → Characters → Except (List Diag) Characters
  | [], acc => .ok acc
  | f :: rest, acc =>
      match f.parsed with
      | none => .error [mkErr s!"Failed to load character file {f.name}"]
      | some d =>
          if pyTruthyStr d.id then
            loadCharsLoop rest (dictInsert acc (d.id.getD "") ⟨f.name, d⟩)
          else
            loadCharsLoop rest acc

/-- `load_all_characters`: `.error` models the `sys.exit(1)` paths (missing
directory, zero usable files, load exception), carrying the diagnostics
printed before exiting. -/
def load_all_characters (fs : DocSet) : Except (List Diag) Characters :=
  match fs.charsDir with
  | none => .error [mkErr "Characters directory not found"]
  | some files =>
      let char_files := usableCharFiles files
      if char_files.isEmpty then
        .error [mkErr "No character files found in characters directory"]
      else
        loadCharsLoop char_files []

/-! ## The ten test functions -/

/-- `test_at_least_one_character`. -/
def test_at_least_one_character (chars : Characters) : Bool × List Diag :=
  if chars.length == 0 then (false, [mkErr "No characters found"])
  else (true, [mkOk s!"Found {chars.length} character(s)"])

/-- The three format checks run on one story entry by
`test_page_formatting`. -/
def page_format_page (c_name c_id page : String) : Bool × List Diag :=
  let e1 := pyStartsWith page "pages/"
  let d1 := if e1 then
      [mkErr s!"{c_name} ({c_id}): Page {page} includes pages/ - should be just filename"]
    else []
  let e2 := !pyEndsWith page ".yaml"
  let d2 := if e2 then
      [mkErr s!"{c_name} ({c_id}): Page {page} missing .yaml extension"]
    else []
  let e3 := page.data.contains '/' || page.data.contains '\\'
  let d3 := if e3 then
      [mkErr s!"{c_name} ({c_id}): Page {page} contains path separator - should be just filename"]
    else []
  (e1 || (e2 || e3), d1 ++ d2 ++ d3)

def page_format_char (c : String × CharInfo) : Bool × List Diag :=
  combineChecks (c.2.data.story.map (page_format_page c.2.name c.1))

/-- `test_page_formatting`. -/
def test_page_formatting (chars : Characters) : Bool × List Diag :=
  let r := combineChecks (chars.map page_format_char)
  if r.1 then (false, r.2)
  else (true, r.2 ++ [mkOk "All page references are properly formatted"])

def pages_exist_char (fs : DocSet) (c : String × CharInfo) : Bool × List Diag :=
  combineChecks (c.2.data.story.map (fun page =>
    if !pageExists fs page then
      (true, [mkErr s!"{c.2.name} ({c.1}): Referenced page {page} does not exist"])
    else (false, [])))

/-- `test_pages_exist`. -/
def test_pages_exist (fs : DocSet) (chars : Characters) : Bool × List Diag :=
  match fs.pagesDir with
  | none => (false, [mkErr "Pages directory not found"])
  | some _ =>
      let r := combineChecks (chars.map (pages_exist_char fs))
      if r.1 then (false, r.2)
      else (true, r.2 ++ [mkOk "All referenced pages exist"])

/-- One position check of `test_no_overlaps_on_required_solo_spreads`:
only an overlap (more than one embedded character code) is an error. -/
def solo_spread_pos (c_name c_id : String) (pages : List String) (pos : Nat) :
    Bool × List Diag :=
  if pos - 1 < pages.length then
    let page := pages.getD (pos - 1) ""
    let char_codes := charCodes page
    if char_codes.length > 1 then
      (true, [mkErr s!"{c_name} ({c_id}): Spread {pos} ({page}) is a joint page with {char_codes} - spreads 1, 11, 12 must be character-specific"])
    else (false, [])
  else (false, [])

def solo_spread_char (c : String × CharInfo) : Bool × List Diag :=
  combineChecks (REQUIRED_SOLO_SPREADS.map
    (solo_spread_pos c.2.name c.1 c.2.data.story))

/-- `test_no_overlaps_on_required_solo_spreads`. -/
def test_no_overlaps_on_required_solo_spreads (chars : Characters) :
    Bool × List Diag :=
  let r := combineChecks (chars.map solo_spread_char)
  if r.1 then (false, r.2)
  else (true, r.2 ++ [mkOk "Spreads 1, 11, and 12 are all character-specific (no overlaps)"])

/-- Lexicographic `<=` on strings by code point, as Python compares
strings. -/
def listCharLe : List Char → List Char → Bool
  | [], _ => true
  | _ :: _, [] => false
  | a :: as, b :: bs =>
      if a < b then true else if b < a then false else listCharLe as bs

def strLe (a b : String) : Bool := listCharLe a.data b.data

/-- Insertion sort on strings, modelling Python `sorted` (a deterministic
sorted arrangement of distinct strings). -/
def insertSorted (x : String) : List String → List String
  | [] => [x]
  | y :: rest => if strLe x y then x :: y :: rest else y :: insertSorted x rest

def sortStrings : List String → List String
  | [] => []
  | x :: rest => insertSorted x (sortStrings rest)

/-- `set(p.name for p in pages_dir.glob('*.yaml'))`, canonicalised as a
first-occurrence-deduplicated list. -/
def allPageFiles (files : List PageFile) : List String :=
  dedupKeepFirst ((files.filter (fun p => globYaml p.name)).map (fun p => p.name))

/-- `stray_pages = all_page_files - referenced_pages`. -/
def strayPages (files : List PageFile) (chars : Characters) : List String :=
  (allPageFiles files).filter (fun n => !(referencedPages chars).contains n)

/-- `test_no_stray_pages`. -/
def test_no_stray_pages (fs : DocSet) (chars : Characters) : Bool × List Diag :=
  match fs.pagesDir with
  | none => (false, [mkErr "Pages directory not found"])
  | some files =>
      let stray_pages := strayPages files chars
      if stray_pages.isEmpty then
        (true, [mkOk "No stray pages found - all pages are referenced"])
      else
        (false,
          mkErr s!"Found {stray_pages.length} stray page(s) not referenced by any character:" ::
            (sortStrings stray_pages).map (fun p => mkInfo s!"  - {p}"))

/-- One page of `test_page_yaml_validity`: only a YAML parse error of an
existing referenced page is an error. -/
def yaml_validity_page (fs : DocSet) (page : String) : Bool × List Diag :=
  match findPage fs page with
  | none => (false, [])
  | some pf =>
      match pf.parsed with
      | none => (true, [mkErr s!"Page {page} is not valid YAML"])
      | some _ => (false, [])

/-- `test_page_yaml_validity`. -/
def test_page_yaml_validity (fs : DocSet) (chars : Characters) : Bool × List Diag :=
  let r := combineChecks ((referencedPages chars).map (yaml_validity_page fs))
  if r.1 then (false, r.2)
  else (true, r.2 ++ [mkOk "All page YAML files are valid"])

/-- `test_missing_pages` extraction: for each story entry, the first
all-digit hyphen-segment of the name without `.yaml`, if any. -/
def firstDigitPart : List String → Option Nat
  | [] => none
  | p :: rest => if pyIsDigit p then some (pyToNat p) else firstDigitPart rest

def pageNumbers (pages : List String) : List Nat :=
  pages.filterMap (fun page =>
    firstDigitPart (pySplitDash (pyRemoveYaml page)))

def expectedNumbers : List Nat := [1, 2, 3, 4, 5, 6, 7, 8, 9, 10, 11, 12]

/-- The per-character body of `test_missing_pages`: a warning when the story
length differs from 12, and an `info` (not warning) line when at least one
number was extracted and the numbers differ from 1..12. -/
def missing_pages_char (c : String × CharInfo) : Bool × List Diag :=
  let pages := c.2.data.story
  let w := pages.length != 12
  let warnD := if w then
      [mkWarn s!"{c.2.name} ({c.1}): Has {pages.length} pages, expected 12"]
    else []
  let page_numbers := pageNumbers pages
  let infoD :=
    if !page_numbers.isEmpty && page_numbers != expectedNumbers then
      [mkInfo s!"{c.2.name} ({c.1}): Page numbering is {page_numbers}"]
    else []
  (w, warnD ++ infoD)

/-- `test_missing_pages`: always returns True (warnings do not fail it). -/
def test_missing_pages (chars : Characters) : Bool × List Diag :=
  let r := combineChecks (chars.map missing_pages_char)
  let sucD := if !r.1 then [mkOk "All characters have 12 pages"] else []
  (true, r.2 ++ sucD)

/-- Accumulated state of the `test_node_types` page loop. -/
structure NTCheck where
  err : Bool
  warn : Bool
  withNT : Nat
  withoutNT : Nat
  diags : List Diag
deriving DecidableEq, Repr

/-- One page of `test_node_types`. -/
def node_type_page (fs : DocSet) (page : String) : NTCheck :=
  match findPage fs page with
  | none => ⟨false, false, 0, 0, []⟩
  | some pf =>
      match pf.parsed with
      | none => ⟨true, false, 0, 0, [mkErr s!"Failed to check node_type for {page}"]⟩
      | some y =>
          match y.asDict with
          | none => ⟨true, false, 0, 0, [mkErr s!"Failed to check node_type for {page}"]⟩
          | some data =>
              if pyTruthyStr data.node_type then
                let t := data.node_type.getD ""
                let e1 := !VALID_NODE_TYPES.contains t
                let d1 := if e1 then
                    [mkErr s!"Page {page} has invalid node_type {t}. Valid types: {VALID_NODE_TYPES}"]
                  else []
                let char_codes := charCodes page
                let e2 := t == "meeting" && char_codes.length < 2
                let d2 := if e2 then
                    [mkErr s!"Page {page} is marked as meeting node but has only one character code"]
                  else []
                let w := t == "solo" && char_codes.length > 1
                let d3 := if w then
                    [mkWarn s!"Page {page} is marked as solo but has multiple character codes"]
                  else []
                ⟨e1 || e2, w, 1, 0, d1 ++ d2 ++ d3⟩
              else
                ⟨false, false, 0, 1, []⟩

def node_types_loop (fs : DocSet) : List String → NTCheck
  | [] => ⟨false, false, 0, 0, []⟩
  | p :: rest =>
      let h := node_type_page fs p
      let r := node_types_loop fs rest
      ⟨h.err || r.err, h.warn || r.warn, h.withNT + r.withNT,
        h.withoutNT + r.withoutNT, h.diags ++ r.diags⟩

/-- `test_node_types`. -/
def test_node_types (fs : DocSet) (chars : Characters) : Bool × List Diag :=
  let r := node_types_loop fs (referencedPages chars)
  let noteD := if r.withoutNT > 0 then
      [mkNote s!"{r.withoutNT} page(s) do not have explicit node_type (using legacy format)"]
    else []
  let sucD := if !r.err then
      [mkOk s!"All page node types are valid ({r.withNT} explicit, {r.withoutNT} inferred)"]
    else []
  (!r.err, r.diags ++ noteD ++ sucD)

/-- Per-scene checks of `test_scene_structure` (index `i` is 0-based; the
messages use `i+1` like the script). -/
def scene_entry_check (page : String) (i : Nat) (s : Scene) : Bool × List Diag :=
  let d1 := if !s.hasVisual then
      [mkErr s!"Page {page} scene {i + 1} missing visual field"] else []
  let d2 := if !s.hasText then
      [mkErr s!"Page {page} scene {i + 1} missing text field"] else []
  let d3 := if !s.hasPage then
      [mkWarn s!"Page {page} scene {i + 1} missing page field (left/right)"] else []
  (!s.hasVisual || !s.hasText, d1 ++ d2 ++ d3)

def scene_loop (page : String) : Nat → List Scene → Bool × List Diag
  | _, [] => (false, [])
  | i, s :: rest =>
      let h := scene_entry_check page i s
      let r := scene_loop page (i + 1) rest
      (h.1 || r.1, h.2 ++ r.2)

/-- `has_scenes = 'scenes' in page_data and page_data['scenes']`: the key is
present (and not null) with a non-empty list value. -/
def hasScenesB (data : PageData) : Bool :=
  match data.scenes with
  | some l => !l.isEmpty
  | none => false

/-- One page of `test_scene_structure`: returns
(error flag, scenes-format count, legacy-format count, diagnostics). -/
def scene_structure_page (fs : DocSet) (page : String) :
    Bool × Nat × Nat × List Diag :=
  match findPage fs page with
  | none => (false, 0, 0, [])
  | some pf =>
      match pf.parsed with
      | none => (true, 0, 0, [mkErr s!"Failed to check scene structure for {page}"])
      | some y =>
          match y.asDict with
          | none => (true, 0, 0, [mkErr s!"Failed to check scene structure for {page}"])
          | some data =>
              if hasScenesB data then
                let scenes := data.scenes.getD []
                let warnD := if scenes.length != 2 then
                    [mkWarn s!"Page {page} has {scenes.length} scenes, expected 2 (left and right)"]
                  else []
                let r := scene_loop page 0 scenes
                (r.1, 1, 0, warnD ++ r.2)
              else if data.hasVisual && data.hasText then
                (false, 0, 1, [])
              else
                (true, 0, 0,
                  [mkErr s!"Page {page} has neither scenes structure nor legacy visual/text fields"])

def scene_structure_loop (fs : DocSet) : List String → Bool × Nat × Nat × List Diag
  | [] => (false, 0, 0, [])
  | p :: rest =>
      let h := scene_structure_page fs p
      let r := scene_structure_loop fs rest
      (h.1 || r.1, h.2.1 + r.2.1, h.2.2.1 + r.2.2.1, h.2.2.2 ++ r.2.2.2)

/-- `test_scene_structure`. -/
def test_scene_structure (fs : DocSet) (chars : Characters) : Bool × List Diag :=
  let r := scene_structure_loop fs (referencedPages chars)
  let noteD := [mkNote s!"Page formats: {r.2.1} new (scenes), {r.2.2.1} legacy (visual/text)"]
  let sucD := if !r.1 then [mkOk "All pages have valid content structure"] else []
  (!r.1, r.2.2.2 ++ noteD ++ sucD)

/-- `if char_code and char_code not in characters`. -/
def interaction_char_check (chars : Characters) (code : String) : Bool × List Diag :=
  if !code.data.isEmpty && !dictContains chars code then
    (true, [mkErr s!"Interaction references unknown character {code}"])
  else (false, [])

/-- The per-node checks of `test_world_interactions`; a `none` entry models
a non-mapping node, which the script skips. -/
def world_node_check (fs : DocSet) (n : Option WNode) : Bool × List Diag :=
  match n with
  | none => (false, [])
  | some node =>
      let e1 := match node.spread with
        | some sp => REQUIRED_SOLO_SPREADS.contains sp
        | none => false
      let d1 := if e1 then
          [mkErr s!"Node at spread {node.spread.getD 0} violates constraint - spreads 1, 11, 12 must be character-specific"]
        else []
      let t := node.typ.getD ""
      let e2 := pyTruthyStr node.typ && !VALID_NODE_TYPES.contains t
      let d2 := if e2 then [mkErr s!"Node has invalid type {t}"] else []
      let p := node.page_file.getD ""
      let e3 := pyTruthyStr node.page_file && !pageExists fs p
      let d3 := if e3 then
          [mkErr s!"Node references non-existent page {p}"]
        else []
      (e1 || (e2 || e3), d1 ++ d2 ++ d3)

def interaction_check (fs : DocSet) (chars : Characters) (i : Option Interaction) :
    Bool × List Diag :=
  match i with
  | none => (false, [])
  | some it =>
      let rc := combineChecks (it.characters.map (interaction_char_check chars))
      let rn := combineChecks (it.nodes.map (world_node_check fs))
      (rc.1 || rn.1, rc.2 ++ rn.2)

/-- `test_world_interactions`. -/
def test_world_interactions (fs : DocSet) (chars : Characters) : Bool × List Diag :=
  match fs.world with
  | none => (true, [mkWarn "world.yaml not found - skipping interaction validation"])
  | some wf =>
      match wf.parsed with
      | none => (false, [mkErr "Failed to load world.yaml"])
      | some wd =>
          if wd.interactions.isEmpty then
            (true, [mkNote "No interactions defined in world.yaml"])
          else
            let r := combineChecks (wd.interactions.map (interaction_check fs chars))
            if r.1 then (false, r.2)
            else (true, r.2 ++ [mkOk "World interactions are valid"])

/-! ## `main` -/

/-- The `tests` list of `main`, in the source order, pairing each display
name with the test result. -/
def tests (fs : DocSet) (chars : Characters) : List (String × (Bool × List Diag)) :=
  [("At least one character exists", test_at_least_one_character chars),
   ("Page formatting is correct", test_page_formatting chars),
   ("All referenced pages exist", test_pages_exist fs chars),
   ("Spreads 1, 11, 12 are character-specific", test_no_overlaps_on_required_solo_spreads chars),
   ("No stray pages in pages directory", test_no_stray_pages fs chars),
   ("Page YAML files are valid", test_page_yaml_validity fs chars),
   ("Check for missing pages", test_missing_pages chars),
   ("Node types are valid", test_node_types fs chars),
   ("Scene structure is valid", test_scene_structure fs chars),
   ("World interactions are valid", test_world_interactions fs chars)]

/-- Conjunction of the ten test results, written out test by test. -/
def allRulesPass (fs : DocSet) (chars : Characters) : Bool :=
  (test_at_least_one_character chars).1 &&
  ((test_page_formatting chars).1 &&
  ((test_pages_exist fs chars).1 &&
  ((test_no_overlaps_on_required_solo_spreads chars).1 &&
  ((test_no_stray_pages fs chars).1 &&
  ((test_page_yaml_validity fs chars).1 &&
  ((test_missing_pages chars).1 &&
  ((test_node_types fs chars).1 &&
  ((test_scene_structure fs chars).1 &&
  (test_world_interactions fs chars).1))))))))

/-- `main`: exit code plus all diagnostic lines of the run.  A loader
`sys.exit(1)` is caught by `except SystemExit: return 1` before any test
runs. -/
def main (fs : DocSet) : Nat × List Diag :=
  match load_all_characters fs with
  | .error ds => (1, ds)
  | .ok characters =>
      let results := (tests fs characters).map (fun t => t.2)
      let diags := results.flatMap (fun r => r.2)
      let passed := (results.map (fun r => r.1)).count true
      let total := results.length
      if results.all (fun r => r.1) then
        (0, diags ++ [mkOk s!"All {total} tests passed!"])
      else
        (1, diags ++ [mkErr s!"{total - passed} out of {total} tests failed"])

/-- The per-page failure condition of `test_node_types` (a referenced page
that exists and either cannot be checked or has a truthy node_type that is
invalid or is a meeting page with fewer than two character codes); warnings
are not part of it. -/
def nodeTypePageErr (fs : DocSet) (page : String) : Bool :=
  (node_type_page fs page).err

/-- The per-page failure condition of `test_scene_structure`. -/
def sceneStructurePageErr (fs : DocSet) (page : String) : Bool :=
  (scene_structure_page fs page).1

/-! ## Concrete document sets used by witnesses and counterexamples -/

/-- An empty file system: no characters directory, no pages directory, no
world file. -/
def fsEmpty : DocSet := ⟨none, none, none⟩

/-- A healthy one-character document set: character `em` whose single story
page exists, parses, and has `node_type: solo` plus legacy fields. -/
def fsHealthy : DocSet :=
  ⟨some [⟨"em.yaml", some ⟨some "em", some "Em", ["em-01.yaml"]⟩⟩],
   some [⟨"em-01.yaml", some ⟨some ⟨some "solo", none, true, true⟩⟩⟩],
   none⟩

/-- The character map `fsHealthy` loads. -/
def charsHealthy : Characters :=
  [("em", ⟨"em.yaml", ⟨some "em", some "Em", ["em-01.yaml"]⟩⟩)]

/-- One character whose first story page embeds zero 2-letter character
codes. -/
def charsZeroCode : Characters :=
  [("em", ⟨"em.yaml", ⟨some "em", some "Em", ["01.yaml"]⟩⟩)]

/-- A characters directory containing a single parseable file with no `id`
key. -/
def fsNoId : DocSet :=
  ⟨some [⟨"a.yaml", some ⟨none, none, []⟩⟩], none, none⟩

/-- A document set whose pages directory is missing while a character is
loaded. -/
def fsNoPagesDir : DocSet :=
  ⟨some [⟨"em.yaml", some ⟨some "em", some "Em", []⟩⟩], none, none⟩

/-- Twelve story pages numbered 2,1,3,4,...,12: correct length, wrong
order. -/
def storyReordered : List String :=
  ["em-02.yaml", "em-01.yaml", "em-03.yaml", "em-04.yaml", "em-05.yaml",
   "em-06.yaml", "em-07.yaml", "em-08.yaml", "em-09.yaml", "em-10.yaml",
   "em-11.yaml", "em-12.yaml"]

/-- One character with `storyReordered` as its story. -/
def charsReordered : Characters :=
  [("em", ⟨"em.yaml", ⟨some "em", some "Em", storyReordered⟩⟩)]

/-- A document set with a solo-marked page whose filename embeds two
character codes (`cu-em-03.yaml`), referenced by character `em`. -/
def fsSoloMulti : DocSet :=
  ⟨some [⟨"em.yaml", some ⟨some "em", some "Em", ["cu-em-03.yaml"]⟩⟩],
   some [⟨"cu-em-03.yaml", some ⟨some ⟨some "solo", none, true, true⟩⟩⟩],
   none⟩

/-- The character map `fsSoloMulti` loads. -/
def charsSoloMulti : Characters :=
  [("em", ⟨"em.yaml", ⟨some "em", some "Em", ["cu-em-03.yaml"]⟩⟩)]

/-- A document set whose single referenced page uses the scenes format with
one scene that has visual and text but no page side tag. -/
def fsOneScene : DocSet :=
  ⟨some [⟨"em.yaml", some ⟨some "em", some "Em", ["em-01.yaml"]⟩⟩],
   some [⟨"em-01.yaml", some ⟨some ⟨none, some [⟨true, true, false⟩], false, false⟩⟩⟩],
   none⟩

/-! ## Helper lemmas -/

theorem combineChecks_map_fst {α : Type} (f : α → Bool × List Diag) (l : List α) :
    (combineChecks (l.map f)).1 = l.any (fun x => (f x).1) := by
  induction l with
  | nil => rfl
  | cons x rest ih => simp [combineChecks, ih, List.any_cons]

theorem combineChecks_map_mem {α : Type} (f : α → Bool × List Diag) (l : List α)
    (x : α) (hx : x ∈ l) (d : Diag) (hd : d ∈ (f x).2) :
    d ∈ (combineChecks (l.map f)).2 := by
  induction l with
  | nil => cases hx
  | cons y rest ih =>
      rcases List.mem_cons.mp hx with h | h
      · subst h; exact List.mem_append.mpr (Or.inl hd)
      · exact List.mem_append.mpr (Or.inr (ih h))

theorem dedupAux_mem (a : String) (l seen : List String) :
    a ∈ dedupAux l seen ↔ a ∈ l ∧ a ∉ seen := by
  induction l generalizing seen with
  | nil => simp [dedupAux]
  | cons x rest ih =>
      by_cases hx : seen.contains x
      · rw [dedupAux, if_pos hx, ih]
        have hxs : x ∈ seen := by
          simpa using List.elem_iff.mp hx
        constructor
        · rintro ⟨h1, h2⟩; exact ⟨List.mem_cons_of_mem _ h1, h2⟩
        · rintro ⟨h1, h2⟩
          rcases List.mem_cons.mp h1 with h | h
          · exact absurd (h ▸ hxs) h2
          · exact ⟨h, h2⟩
      · rw [dedupAux, if_neg hx]
        have hxs : x ∉ seen := by
          intro hc
          exact hx (List.elem_iff.mpr hc)
        constructor
        · intro h
          rcases List.mem_cons.mp h with h | h
          · exact ⟨h ▸ List.mem_cons_self _ _, h ▸ hxs⟩
          · have := (ih (x :: seen)).mp h
            refine ⟨List.mem_cons_of_mem _ this.1, fun hc => this.2 (List.mem_cons_of_mem _ hc)⟩
        · rintro ⟨h1, h2⟩
          rcases List.mem_cons.mp h1 with h | h
          · exact h ▸ List.mem_cons_self _ _
          · by_cases hax : a = x
            · exact hax ▸ List.mem_cons_self _ _
            · exact List.mem_cons_of_mem _ ((ih (x :: seen)).mpr
                ⟨h, fun hc => (List.mem_cons.mp hc).elim hax h2⟩)

theorem dedupKeepFirst_mem (a : String) (l : List String) :
    a ∈ dedupKeepFirst l ↔ a ∈ l := by
  rw [dedupKeepFirst, dedupAux_mem]; simp

theorem referencedPages_mem (chars : Characters) (page : String) :
    page ∈ referencedPages chars ↔ ∃ c ∈ chars, page ∈ c.2.data.story := by
  rw [referencedPages, dedupKeepFirst_mem]
  simp [List.mem_flatMap]

theorem insertSorted_mem (a x : String) (l : List String) :
    a ∈ insertSorted x l ↔ a = x ∨ a ∈ l := by
  induction l with
  | nil => simp [insertSorted]
  | cons y rest ih =>
      rw [insertSorted]
      by_cases h : strLe x y
      · simp [h]
      · simp only [if_neg h, List.mem_cons, ih]
        tauto

theorem sortStrings_mem (a : String) (l : List String) :
    a ∈ sortStrings l ↔ a ∈ l := by
  induction l with
  | nil => simp [sortStrings]
  | cons x rest ih => rw [sortStrings, insertSorted_mem, ih]; simp

theorem node_types_loop_err (fs : DocSet) (l : List String) :
    (node_types_loop fs l).err = l.any (fun p => (node_type_page fs p).err) := by
  induction l with
  | nil => rfl
  | cons p rest ih => simp [node_types_loop, ih, List.any_cons]

theorem node_types_loop_mem (fs : DocSet) (l : List String) (p : String)
    (hp : p ∈ l) (d : Diag) (hd : d ∈ (node_type_page fs p).diags) :
    d ∈ (node_types_loop fs l).diags := by
  induction l with
  | nil => cases hp
  | cons q rest ih =>
      simp only [node_types_loop]
      rcases List.mem_cons.mp hp with h | h
      · subst h; exact List.mem_append.mpr (Or.inl hd)
      · exact List.mem_append.mpr (Or.inr (ih h))

theorem scene_structure_loop_fst (fs : DocSet) (l : List String) :
    (scene_structure_loop fs l).1 = l.any (fun p => (scene_structure_page fs p).1) := by
  induction l with
  | nil => rfl
  | cons p rest ih => simp [scene_structure_loop, ih, List.any_cons]

theorem scene_structure_loop_mem (fs : DocSet) (l : List String) (p : String)
    (hp : p ∈ l) (d : Diag) (hd : d ∈ (scene_structure_page fs p).2.2.2) :
    d ∈ (scene_structure_loop fs l).2.2.2 := by
  induction l with
  | nil => cases hp
  | cons q rest ih =>
      simp only [scene_structure_loop]
      rcases List.mem_cons.mp hp with h | h
      · subst h; exact List.mem_append.mpr (Or.inl hd)
      · exact List.mem_append.mpr (Or.inr (ih h))

theorem scene_loop_fst (page : String) (l : List Scene) : ∀ i : Nat,
    (scene_loop page i l).1 = l.any (fun s => !s.hasVisual || !s.hasText) := by
  induction l with
  | nil => intro i; rfl
  | cons s rest ih =>
      intro i
      simp [scene_loop, scene_entry_check, ih (i + 1), List.any_cons]

theorem scene_loop_mem (page : String) (l : List Scene) :
    ∀ (i j : Nat) (hj : j < l.length) (d : Diag),
      d ∈ (scene_entry_check page (i + j) (l.get ⟨j, hj⟩)).2 →
      d ∈ (scene_loop page i l).2 := by
  induction l with
  | nil => intro i j hj; exact absurd hj (Nat.not_lt_zero j)
  | cons s rest ih =>
      intro i j hj d hd
      cases j with
      | zero =>
          simp only [scene_loop]
          exact List.mem_append.mpr (Or.inl hd)
      | succ j' =>
          simp only [scene_loop]
          refine List.mem_append.mpr (Or.inr ?_)
          have : i + (j' + 1) = (i + 1) + j' := by omega
          exact ih (i + 1) j' (Nat.lt_of_succ_lt_succ hj) d (by
            simpa [this] using hd)

theorem loadCharsLoop_error_of_parse_fail (l : List CharFile) :
    ∀ acc : Characters, (∃ f ∈ l, f.parsed = none) →
      ∃ ds, loadCharsLoop l acc = Except.error ds ∧ ds ≠ [] := by
  induction l with
  | nil => rintro acc ⟨f, hf, _⟩; cases hf
  | cons f rest ih =>
      intro acc h
      match hp : f.parsed with
      | none =>
          refine ⟨[mkErr s!"Failed to load character file {f.name}"], ?_, ?_⟩
          · simp [loadCharsLoop, hp]
          · simp
      | some d =>
          rcases h with ⟨g, hg, hgp⟩
          rcases List.mem_cons.mp hg with h1 | h1
          · subst h1; rw [hp] at hgp; cases hgp
          · simp only [loadCharsLoop, hp]
            by_cases ht : pyTruthyStr d.id
            · simp only [ht, if_true]
              exact ih _ ⟨g, h1, hgp⟩
            · simp only [ht, if_false]
              exact ih _ ⟨g, h1, hgp⟩

theorem loadCharsLoop_ok_skip (l : List CharFile) :
    ∀ acc : Characters,
      (∀ f ∈ l, ∃ d, f.parsed = some d ∧ pyTruthyStr d.id = false) →
      loadCharsLoop l acc = Except.ok acc := by
  induction l with
  | nil => intro acc _; rfl
  | cons f rest ih =>
      intro acc h
      rcases h f (List.mem_cons_self _ _) with ⟨d, hp, ht⟩
      simp only [loadCharsLoop, hp, ht, if_false]
      exact ih acc (fun g hg => h g (List.mem_cons_of_mem _ hg))

/-! ## Claim theorems -/

/-- Claim C4: validation is deterministic over its input — two runs of the
validator on the same unchanged document set produce identical exit codes
and identical diagnostic lines.  In the embedding a run is the pure function
`main` of the document snapshot, so equal inputs give equal exit codes and
equal diagnostic sequences (hence equal sets of diagnostic lines). -/
theorem C4_validation_deterministic (fs1 fs2 : DocSet) (h : fs1 = fs2) :
    (main fs1).1 = (main fs2).1 ∧ (main fs1).2 = (main fs2).2 := by
  subst h; exact ⟨rfl, rfl⟩

/-- Witness for C4 at the concrete healthy document set. -/
theorem C4_validation_deterministic_witness :
    (main fsHealthy).1 = (main fsHealthy).1 ∧
    (main fsHealthy).2 = (main fsHealthy).2 :=
  C4_validation_deterministic fsHealthy fsHealthy rfl

/-- Counterexample to claim C9: the claim says the page-count/sequence rule
(`Check for missing pages`, spec rule 6) runs before the page-document-
validity rule (`Page YAML files are valid`, spec rule 7); in `main`'s test
list the validity rule is at index 5 and the count/sequence rule at index 6,
so the count/sequence rule does not run before the validity rule. -/
theorem C9_counterexample :
    ((tests fsEmpty []).map Prod.fst).findIdx
        (fun n => n == "Page YAML files are valid") = 5 ∧
    ((tests fsEmpty []).map Prod.fst).findIdx
        (fun n => n == "Check for missing pages") = 6 ∧
    ¬ (((tests fsEmpty []).map Prod.fst).findIdx
          (fun n => n == "Check for missing pages") <
        ((tests fsEmpty []).map Prod.fst).findIdx
          (fun n => n == "Page YAML files are valid")) := by
  refine ⟨rfl, rfl, by decide⟩

/-- Claim C9 (amended): the ten rules run in a fixed order for every
document set, namely the order of `main`'s test list; the no-orphan-pages
rule (index 4) runs before the page-document-validity rule (index 5), which
runs before the page-count/sequence rule (index 6) — the spec's rules 6 and
7 run in the opposite of the spec's listed order. -/
theorem C9_rule_order (fs : DocSet) (chars : Characters) :
    (tests fs chars).map Prod.fst =
      ["At least one character exists", "Page formatting is correct",
       "All referenced pages exist", "Spreads 1, 11, 12 are character-specific",
       "No stray pages in pages directory", "Page YAML files are valid",
       "Check for missing pages", "Node types are valid",
       "Scene structure is valid", "World interactions are valid"] ∧
    ((tests fs chars).map Prod.fst).findIdx
        (fun n => n == "No stray pages in pages directory") = 4 ∧
    ((tests fs chars).map Prod.fst).findIdx
        (fun n => n == "Page YAML files are valid") = 5 ∧
    ((tests fs chars).map Prod.fst).findIdx
        (fun n => n == "Check for missing pages") = 6 :=
  ⟨rfl, rfl, rfl, rfl⟩

/-- Claim C3: if the characters directory is missing, or it contains zero
usable character files, or some usable character file fails to load, then
`load_all_characters` reports the problem (a non-empty diagnostic list) and
the run stops with exit status 1 before any validation rule runs: the run's
entire output is the loader's diagnostics. -/
theorem C3_loader_halts (fs : DocSet)
    (h : fs.charsDir = none ∨
      ∃ files, fs.charsDir = some files ∧
        (usableCharFiles files = [] ∨ ∃ f ∈ usableCharFiles files, f.parsed = none)) :
    ∃ ds, load_all_characters fs = Except.error ds ∧ ds ≠ [] ∧ main fs = (1, ds) := by
  rcases h with h | ⟨files, hd, h⟩
  · refine ⟨[mkErr "Characters directory not found"], ?_, by simp, ?_⟩
    · simp [load_all_characters, h]
    · simp [main, load_all_characters, h]
  · rcases h with h | h
    · refine ⟨[mkErr "No character files found in characters directory"], ?_, by simp, ?_⟩
      · simp [load_all_characters, hd, h]
      · simp [main, load_all_characters, hd, h]
    · rcases loadCharsLoop_error_of_parse_fail (usableCharFiles files) [] h with ⟨ds, hds, hne⟩
      have hemp : (usableCharFiles files).isEmpty = false := by
        rcases h with ⟨f, hf, _⟩
        cases hu : usableCharFiles files with
        | nil => rw [hu] at hf; cases hf
        | cons a b => rfl
      have hload : load_all_characters fs = Except.error ds := by
        simp [load_all_characters, hd, hemp, hds]
      exact ⟨ds, hload, hne, by simp [main, hload]⟩

/-- Witness for C3 at the empty file system (missing characters
directory). -/
theorem C3_loader_halts_witness :
    fsEmpty.charsDir = none ∧
    ∃ ds, load_all_characters fsEmpty = Except.error ds ∧ ds ≠ [] ∧
      main fsEmpty = (1, ds) :=
  ⟨rfl, C3_loader_halts fsEmpty (Or.inl rfl)⟩

/-- Claim C10: a character file that parses but has a missing or falsy `id`
is silently skipped by the loader — with only such files the loader returns
an empty character map without halting, and the at-least-one-character rule
(not the loader) is what fails, giving exit status 1 through the normal
test run. -/
theorem C10_idless_files_skipped (fs : DocSet) (files : List CharFile)
    (hdir : fs.charsDir = some files)
    (hne : usableCharFiles files ≠ [])
    (hall : ∀ f ∈ usableCharFiles files,
      ∃ d, f.parsed = some d ∧ pyTruthyStr d.id = false) :
    load_all_characters fs = Except.ok [] ∧
    (test_at_least_one_character []).1 = false ∧
    (main fs).1 = 1 := by
  have hemp : (usableCharFiles files).isEmpty = false := by
    cases hu : usableCharFiles files with
    | nil => exact absurd hu hne
    | cons a b => rfl
  have hload : load_all_characters fs = Except.ok [] := by
    simp [load_all_characters, hdir, hemp, loadCharsLoop_ok_skip _ [] hall]
  refine ⟨hload, rfl, ?_⟩
  simp [main, hload, tests, test_at_least_one_character]

/-- Witness for C10: a characters directory holding one parseable file with
no `id` key. -/
theorem C10_idless_files_skipped_witness :
    load_all_characters fsNoId = Except.ok [] ∧
    (test_at_least_one_character []).1 = false ∧
    (main fsNoId).1 = 1 :=
  C10_idless_files_skipped fsNoId [⟨"a.yaml", some ⟨none, none, []⟩⟩] rfl
    (by decide)
    (fun f hf => by
      have hf2 : f ∈ [(⟨"a.yaml", some ⟨none, none, []⟩⟩ : CharFile)] := hf
      have heq := List.mem_singleton.mp hf2
      exact ⟨⟨none, none, []⟩, by rw [heq], rfl⟩)

/-- Counterexample to claim C2: the claim says the solo-spread rule fails
whenever the code count differs from one, but a first-position page with
zero embedded character codes leaves the rule passing. -/
theorem C2_counterexample :
    (1 : Nat) ∈ REQUIRED_SOLO_SPREADS ∧
    (1 : Nat) - 1 < ["01.yaml"].length ∧
    (charCodes "01.yaml").length ≠ 1 ∧
    (test_no_overlaps_on_required_solo_spreads charsZeroCode).1 = true := by
  decide

/-- Claim C2 (amended): the solo-spread rule fails exactly when some
character has, at some position in {1, 11, 12} that exists in its story, a
filename embedding more than one 2-letter alphabetic hyphen-delimited
character code; a count of zero codes is accepted. -/
theorem C2_solo_spread_rule (chars : Characters) :
    (test_no_overlaps_on_required_solo_spreads chars).1 = false ↔
      ∃ c ∈ chars, ∃ pos ∈ REQUIRED_SOLO_SPREADS,
        pos - 1 < c.2.data.story.length ∧
        1 < (charCodes (c.2.data.story.getD (pos - 1) "")).length := by
  have hpos : ∀ (n i : String) (pages : List String) (pos : Nat),
      (solo_spread_pos n i pages pos).1 = true ↔
        pos - 1 < pages.length ∧
        1 < (charCodes (pages.getD (pos - 1) "")).length := by
    intro n i pages pos
    simp only [solo_spread_pos]
    by_cases hlt : pos - 1 < pages.length
    · rw [if_pos hlt]
      by_cases hc : (charCodes (pages.getD (pos - 1) "")).length > 1
      · rw [if_pos hc]
        exact ⟨fun _ => ⟨hlt, hc⟩, fun _ => rfl⟩
      · rw [if_neg hc]
        exact ⟨fun h => by simp at h, fun h => absurd h.2 hc⟩
    · rw [if_neg hlt]
      exact ⟨fun h => by simp at h, fun h => absurd h.1 hlt⟩
  have hfst : (test_no_overlaps_on_required_solo_spreads chars).1 =
      !(combineChecks (chars.map solo_spread_char)).1 := by
    simp only [test_no_overlaps_on_required_solo_spreads]
    by_cases h : (combineChecks (chars.map solo_spread_char)).1 <;> simp [h]
  rw [hfst, combineChecks_map_fst, Bool.not_eq_false', List.any_eq_true]
  constructor
  · rintro ⟨c, hc, hcc⟩
    rw [solo_spread_char, combineChecks_map_fst, List.any_eq_true] at hcc
    rcases hcc with ⟨pos, hposmem, hp⟩
    exact ⟨c, hc, pos, hposmem, (hpos _ _ _ _).mp hp⟩
  · rintro ⟨c, hc, pos, hposmem, hcond⟩
    refine ⟨c, hc, ?_⟩
    rw [solo_spread_char, combineChecks_map_fst, List.any_eq_true]
    exact ⟨pos, hposmem, (hpos _ _ _ _).mpr hcond⟩

/-- Claim C1: for every document set whose characters load, `main` exits 0
iff all ten rule functions return true and exits 1 iff at least one returns
false; only the boolean rule results enter the aggregate, so warning-only
findings never change it. -/
theorem C1_exit_code (fs : DocSet) (chars : Characters)
    (h : load_all_characters fs = Except.ok chars) :
    ((main fs).1 = 0 ↔ allRulesPass fs chars = true) ∧
    ((main fs).1 = 1 ↔ allRulesPass fs chars = false) := by
  have hall : ((tests fs chars).map (fun t => t.2)).all (fun r => r.1) =
      allRulesPass fs chars := by
    simp [tests, allRulesPass, List.all_cons, List.all_nil, Bool.and_true]
  have hmain : (main fs).1 = if allRulesPass fs chars then 0 else 1 := by
    simp only [main, h]
    rw [← hall]
    by_cases hb : ((tests fs chars).map (fun t => t.2)).all (fun r => r.1) <;>
      simp [hb]
  rw [hmain]
  by_cases hb : allRulesPass fs chars <;> simp [hb]

/-- Witness for C1 at the healthy one-character document set. -/
theorem C1_exit_code_witness :
    load_all_characters fsHealthy = Except.ok charsHealthy ∧
    (((main fsHealthy).1 = 0 ↔ allRulesPass fsHealthy charsHealthy = true) ∧
      ((main fsHealthy).1 = 1 ↔ allRulesPass fsHealthy charsHealthy = false)) :=
  ⟨rfl, C1_exit_code fsHealthy charsHealthy rfl⟩

/-- Counterexample to claim C8: a character with twelve pages whose numeric
suffixes come out as 2,1,3,...,12 (not the sequence 1..12) produces no
warning-severity diagnostic at all — the numbering mismatch is reported as
an informational line, not a warning. -/
theorem C8_counterexample :
    pageNumbers storyReordered ≠ expectedNumbers ∧
    pageNumbers storyReordered ≠ [] ∧
    (test_missing_pages charsReordered).1 = true ∧
    (test_missing_pages charsReordered).2.all (fun d => d.sev != Sev.warnS) = true ∧
    (test_missing_pages charsReordered).2.any (fun d => d.sev == Sev.infoS) = true := by
  decide

/-- Claim C8 (amended): the page-count/sequence rule never fails; it emits a
warning-severity diagnostic when a story's length differs from 12, and when
the extracted numeric suffixes are non-empty and differ from 1..12 it emits
an informational-severity (not warning) diagnostic. -/
theorem C8_missing_pages_rule (chars : Characters) :
    (test_missing_pages chars).1 = true ∧
    (∀ c ∈ chars, c.2.data.story.length ≠ 12 →
      mkWarn s!"{c.2.name} ({c.1}): Has {c.2.data.story.length} pages, expected 12"
        ∈ (test_missing_pages chars).2) ∧
    (∀ c ∈ chars, pageNumbers c.2.data.story ≠ [] →
      pageNumbers c.2.data.story ≠ expectedNumbers →
      mkInfo s!"{c.2.name} ({c.1}): Page numbering is {pageNumbers c.2.data.story}"
        ∈ (test_missing_pages chars).2) := by
  refine ⟨rfl, ?_, ?_⟩
  · intro c hc hlen
    have hW : mkWarn s!"{c.2.name} ({c.1}): Has {c.2.data.story.length} pages, expected 12"
        ∈ (missing_pages_char c).2 := by
      simp only [missing_pages_char]
      have hb : (c.2.data.story.length != 12) = true := by
        simpa using hlen
      rw [hb]
      simp
    have := combineChecks_map_mem missing_pages_char chars c hc _ hW
    simp only [test_missing_pages]
    exact List.mem_append.mpr (Or.inl this)
  · intro c hc hne hexp
    have hI : mkInfo s!"{c.2.name} ({c.1}): Page numbering is {pageNumbers c.2.data.story}"
        ∈ (missing_pages_char c).2 := by
      simp only [missing_pages_char]
      have hb1 : (pageNumbers c.2.data.story).isEmpty = false := by
        cases hn : pageNumbers c.2.data.story with
        | nil => exact absurd hn hne
        | cons a b => rfl
      have hb2 : (pageNumbers c.2.data.story != expectedNumbers) = true := by
        simpa using hexp
      rw [hb1, hb2]
      simp
    have := combineChecks_map_mem missing_pages_char chars c hc _ hI
    simp only [test_missing_pages]
    exact List.mem_append.mpr (Or.inl this)

/-- Witness for C8 at a character with a single page numbered 2. -/
theorem C8_missing_pages_rule_witness :
    (test_missing_pages [("em", ⟨"em.yaml", ⟨some "em", some "Em", ["em-02.yaml"]⟩⟩)]).1 = true ∧
    mkWarn "Em (em): Has 1 pages, expected 12"
      ∈ (test_missing_pages [("em", ⟨"em.yaml", ⟨some "em", some "Em", ["em-02.yaml"]⟩⟩)]).2 ∧
    mkInfo "Em (em): Page numbering is [2]"
      ∈ (test_missing_pages [("em", ⟨"em.yaml", ⟨some "em", some "Em", ["em-02.yaml"]⟩⟩)]).2 := by
  have h := C8_missing_pages_rule [("em", ⟨"em.yaml", ⟨some "em", some "Em", ["em-02.yaml"]⟩⟩)]
  refine ⟨h.1, ?_, ?_⟩
  · have := h.2.1 _ (List.mem_singleton.mpr rfl) (by decide)
    simpa using this
  · have := h.2.2 _ (List.mem_singleton.mpr rfl) (by decide) (by decide)
    simpa using this

theorem strayPages_mem (files : List PageFile) (chars : Characters) (x : String) :
    x ∈ strayPages files chars ↔
      (∃ pf ∈ files, globYaml pf.name = true ∧ pf.name = x) ∧
        x ∉ referencedPages chars := by
  constructor
  · intro hx
    have h1 := List.mem_filter.mp hx
    rcases List.mem_map.mp ((dedupKeepFirst_mem _ _).mp h1.1) with ⟨pf, hpf2, heq⟩
    have h3 := List.mem_filter.mp hpf2
    refine ⟨⟨pf, h3.1, h3.2, heq⟩, ?_⟩
    intro hc
    have hcon : (referencedPages chars).contains x = true := List.elem_iff.mpr hc
    have := h1.2
    rw [hcon] at this
    simp at this
  · rintro ⟨⟨pf, hpf, hg, heq⟩, hnr⟩
    refine List.mem_filter.mpr ⟨?_, ?_⟩
    · exact (dedupKeepFirst_mem _ _).mpr
        (List.mem_map.mpr ⟨pf, List.mem_filter.mpr ⟨hpf, hg⟩, heq⟩)
    · have hcf : (referencedPages chars).contains x = false := by
        cases hcon : (referencedPages chars).contains x
        · rfl
        · exact absurd (List.elem_iff.mp hcon) hnr
      rw [hcf]
      decide

/-- Counterexample to claim C5: when the pages directory is missing, the
orphan-page rule fails even though no .yaml file in the pages directory is
unreferenced (there are no page files at all), so "fails only if some page
file is unreferenced" does not hold. -/
theorem C5_counterexample :
    (test_no_stray_pages fsNoPagesDir
      [("em", ⟨"em.yaml", ⟨some "em", some "Em", []⟩⟩)]).1 = false ∧
    fsNoPagesDir.pagesDir = none ∧
    ¬ ∃ files pf, fsNoPagesDir.pagesDir = some files ∧ pf ∈ files ∧
        globYaml pf.name = true ∧
        pf.name ∉ referencedPages [("em", ⟨"em.yaml", ⟨some "em", some "Em", []⟩⟩)] := by
  refine ⟨rfl, rfl, ?_⟩
  rintro ⟨files, pf, hfd, -⟩
  cases hfd

/-- Claim C5 (amended): the orphan-page rule fails exactly when the pages
directory is missing or some .yaml file in it is referenced by no
character's story; in the latter case every unreferenced filename appears in
the rule's diagnostics as an informational line. -/
theorem C5_stray_pages_rule (fs : DocSet) (chars : Characters) :
    ((test_no_stray_pages fs chars).1 = false ↔
      fs.pagesDir = none ∨
        ∃ files, fs.pagesDir = some files ∧
          ∃ pf ∈ files, globYaml pf.name = true ∧
            pf.name ∉ referencedPages chars) ∧
    (∀ files pf, fs.pagesDir = some files → pf ∈ files →
      globYaml pf.name = true → pf.name ∉ referencedPages chars →
      mkInfo s!"  - {pf.name}" ∈ (test_no_stray_pages fs chars).2) := by
  cases hfs : fs.pagesDir with
  | none =>
      constructor
      · simp [test_no_stray_pages, hfs]
      · intro files pf h
        cases h
  | some files =>
      have hne_iff : strayPages files chars ≠ [] ↔
          ∃ pf ∈ files, globYaml pf.name = true ∧ pf.name ∉ referencedPages chars := by
        constructor
        · intro hne
          cases hs : strayPages files chars with
          | nil => exact absurd hs hne
          | cons a b =>
              have ha : a ∈ strayPages files chars := by
                rw [hs]; exact List.mem_cons_self _ _
              rcases (strayPages_mem files chars a).mp ha with ⟨⟨pf, hpf, hg, heq⟩, hnr⟩
              exact ⟨pf, hpf, hg, heq ▸ hnr⟩
        · rintro ⟨pf, hpf, hg, hnr⟩
          intro hnil
          have : pf.name ∈ strayPages files chars :=
            (strayPages_mem files chars pf.name).mpr ⟨⟨pf, hpf, hg, rfl⟩, hnr⟩
          rw [hnil] at this
          cases this
      constructor
      · simp only [test_no_stray_pages, hfs]
        by_cases he : (strayPages files chars).isEmpty
        · have hnil : strayPages files chars = [] := by
            cases hs : strayPages files chars with
            | nil => rfl
            | cons a b => rw [hs] at he; cases he
          simp only [he, if_true]
          constructor
          · intro h; cases h
          · rintro (h | ⟨files2, hf2, hex⟩)
            · cases h
            · have hfe : files2 = files := by injection hf2 with h2; exact h2.symm
              subst hfe
              exact absurd (hne_iff.mpr hex) (fun hc => hc hnil)
        · have he' : (strayPages files chars).isEmpty = false := by
            cases h2 : (strayPages files chars).isEmpty
            · rfl
            · exact absurd h2 he
          have hne : strayPages files chars ≠ [] := by
            intro hnil
            rw [hnil] at he
            exact he rfl
          simp only [he', if_false]
          constructor
          · intro _
            exact Or.inr ⟨files, rfl, hne_iff.mp hne⟩
          · intro _
            rfl
      · intro files2 pf hf2 hpf hg hnr
        have heq2 : files2 = files := by injection hf2 with h2; exact h2.symm
        subst heq2
        have hmem : pf.name ∈ strayPages files2 chars :=
          (strayPages_mem files2 chars pf.name).mpr ⟨⟨pf, hpf, hg, rfl⟩, hnr⟩
        have he' : (strayPages files2 chars).isEmpty = false := by
          cases h2 : strayPages files2 chars with
          | nil => rw [h2] at hmem; cases hmem
          | cons a b => rfl
        simp only [test_no_stray_pages, hfs, he', if_false]
        refine List.mem_cons_of_mem _ ?_
        exact List.mem_map.mpr ⟨pf.name, (sortStrings_mem _ _).mpr hmem, rfl⟩

/-- Witness for C5: a pages directory holding one unreferenced page file
`zz-01.yaml`. -/
theorem C5_stray_pages_rule_witness :
    ((test_no_stray_pages ⟨none, some [⟨"zz-01.yaml", none⟩], none⟩ []).1 = false ↔
      (⟨none, some [⟨"zz-01.yaml", none⟩], none⟩ : DocSet).pagesDir = none ∨
        ∃ files, (⟨none, some [⟨"zz-01.yaml", none⟩], none⟩ : DocSet).pagesDir = some files ∧
          ∃ pf ∈ files, globYaml pf.name = true ∧ pf.name ∉ referencedPages []) ∧
    mkInfo "  - zz-01.yaml"
      ∈ (test_no_stray_pages ⟨none, some [⟨"zz-01.yaml", none⟩], none⟩ []).2 := by
  have h := C5_stray_pages_rule ⟨none, some [⟨"zz-01.yaml", none⟩], none⟩ []
  refine ⟨h.1, ?_⟩
  have := h.2 [⟨"zz-01.yaml", none⟩] ⟨"zz-01.yaml", none⟩ rfl
    (List.mem_singleton.mpr rfl) (by decide) (by decide)
  simpa using this

/-- Claim C6: for a referenced page document that exists, parses, and has a
truthy (explicit) node_type, the node-type rule fails when the value is
outside the enumerated set; fails when the value is `meeting` and the
filename embeds fewer than two 2-letter character codes; only warns (the
warning line is emitted, and pages free of the per-page error conditions
never make the rule fail) when the value is `solo` and the filename embeds
more than one code. -/
theorem C6_node_type_rule (fs : DocSet) (chars : Characters) (page : String)
    (pf : PageFile) (y : PageYaml) (data : PageData)
    (hmem : ∃ c ∈ chars, page ∈ c.2.data.story)
    (hfind : findPage fs page = some pf)
    (hp : pf.parsed = some y)
    (hd : y.asDict = some data)
    (ht : pyTruthyStr data.node_type = true) :
    (VALID_NODE_TYPES.contains (data.node_type.getD "") = false →
      (test_node_types fs chars).1 = false) ∧
    (data.node_type = some "meeting" → (charCodes page).length < 2 →
      (test_node_types fs chars).1 = false) ∧
    (data.node_type = some "solo" → 1 < (charCodes page).length →
      mkWarn s!"Page {page} is marked as solo but has multiple character codes"
        ∈ (test_node_types fs chars).2) ∧
    ((∀ q ∈ referencedPages chars, nodeTypePageErr fs q = false) →
      (test_node_types fs chars).1 = true) := by
  have hmem2 : page ∈ referencedPages chars := (referencedPages_mem chars page).mpr hmem
  have hfst : (test_node_types fs chars).1 =
      !(node_types_loop fs (referencedPages chars)).err := rfl
  have herr_rule : (node_type_page fs page).err = true →
      (test_node_types fs chars).1 = false := by
    intro he
    rw [hfst, node_types_loop_err]
    have hany : (referencedPages chars).any (fun q => (node_type_page fs q).err) = true :=
      List.any_eq_true.mpr ⟨page, hmem2, he⟩
    rw [hany]
    decide
  refine ⟨?_, ?_, ?_, ?_⟩
  · intro hinv
    apply herr_rule
    simp only [node_type_page, hfind, hp, hd, ht, if_true, hinv]
    simp
  · intro hmt hcc
    apply herr_rule
    have hcond : pyTruthyStr (some "meeting") = true := by decide
    simp only [node_type_page, hfind, hp, hd, hmt, hcond, if_true]
    simp [hcc]
  · intro hsolo hgt
    have hdiag : mkWarn s!"Page {page} is marked as solo but has multiple character codes"
        ∈ (node_type_page fs page).diags := by
      have hcond : pyTruthyStr (some "solo") = true := by decide
      simp only [node_type_page, hfind, hp, hd, hsolo, hcond, if_true]
      simp [VALID_NODE_TYPES, hgt]
    have hloop := node_types_loop_mem fs (referencedPages chars) page hmem2 _ hdiag
    show _ ∈ (node_types_loop fs (referencedPages chars)).diags ++ _ ++ _
    exact List.mem_append.mpr (Or.inl (List.mem_append.mpr (Or.inl hloop)))
  · intro hall
    rw [hfst, node_types_loop_err]
    cases hany : (referencedPages chars).any (fun q => (node_type_page fs q).err) with
    | false => decide
    | true =>
        rcases List.any_eq_true.mp hany with ⟨q, hq, he⟩
        have h2 : (node_type_page fs q).err = false := hall q hq
        rw [h2] at he
        cases he

/-- Witness for C6 at `fsSoloMulti`: the solo-marked page `cu-em-03.yaml`
embeds two character codes. -/
theorem C6_node_type_rule_witness :
    (VALID_NODE_TYPES.contains ((some "solo").getD "") = false →
      (test_node_types fsSoloMulti charsSoloMulti).1 = false) ∧
    ((some "solo" : Option String) = some "meeting" →
      (charCodes "cu-em-03.yaml").length < 2 →
      (test_node_types fsSoloMulti charsSoloMulti).1 = false) ∧
    ((some "solo" : Option String) = some "solo" →
      1 < (charCodes "cu-em-03.yaml").length →
      mkWarn "Page cu-em-03.yaml is marked as solo but has multiple character codes"
        ∈ (test_node_types fsSoloMulti charsSoloMulti).2) ∧
    ((∀ q ∈ referencedPages charsSoloMulti, nodeTypePageErr fsSoloMulti q = false) →
      (test_node_types fsSoloMulti charsSoloMulti).1 = true) := by
  have h := C6_node_type_rule fsSoloMulti charsSoloMulti "cu-em-03.yaml"
    ⟨"cu-em-03.yaml", some ⟨some ⟨some "solo", none, true, true⟩⟩⟩
    ⟨some ⟨some "solo", none, true, true⟩⟩
    ⟨some "solo", none, true, true⟩
    (by decide) rfl rfl rfl (by decide)
  simpa using h

/-- Claim C7: for a referenced page document that exists and parses, the
content-structure rule fails when the page has neither a non-empty scenes
list nor both legacy visual and text fields; for scene-list pages it fails
for each scene lacking visual or text, warns (without failing, as long as no
page hits a per-page error condition) for each scene lacking the page side
tag, and warns when the scene count differs from two. -/
theorem C7_scene_structure_rule (fs : DocSet) (chars : Characters) (page : String)
    (pf : PageFile) (y : PageYaml) (data : PageData)
    (hmem : ∃ c ∈ chars, page ∈ c.2.data.story)
    (hfind : findPage fs page = some pf)
    (hp : pf.parsed = some y)
    (hd : y.asDict = some data) :
    (hasScenesB data = false → (data.hasVisual && data.hasText) = false →
      (test_scene_structure fs chars).1 = false) ∧
    (∀ l, data.scenes = some l → l ≠ [] →
      ∀ s ∈ l, (!s.hasVisual || !s.hasText) = true →
        (test_scene_structure fs chars).1 = false) ∧
    (∀ l, data.scenes = some l → l ≠ [] →
      ∀ (j : Nat) (hj : j < l.length), (l.get ⟨j, hj⟩).hasPage = false →
        mkWarn s!"Page {page} scene {j + 1} missing page field (left/right)"
          ∈ (test_scene_structure fs chars).2) ∧
    (∀ l, data.scenes = some l → l ≠ [] → l.length ≠ 2 →
      mkWarn s!"Page {page} has {l.length} scenes, expected 2 (left and right)"
        ∈ (test_scene_structure fs chars).2) ∧
    ((∀ q ∈ referencedPages chars, sceneStructurePageErr fs q = false) →
      (test_scene_structure fs chars).1 = true) := by
  have hmem2 : page ∈ referencedPages chars := (referencedPages_mem chars page).mpr hmem
  have hfst : (test_scene_structure fs chars).1 =
      !(scene_structure_loop fs (referencedPages chars)).1 := rfl
  have herr_rule : (scene_structure_page fs page).1 = true →
      (test_scene_structure fs chars).1 = false := by
    intro he
    rw [hfst, scene_structure_loop_fst]
    have hany : (referencedPages chars).any (fun q => (scene_structure_page fs q).1) = true :=
      List.any_eq_true.mpr ⟨page, hmem2, he⟩
    rw [hany]
    decide
  have hmem_rule : ∀ d : Diag, d ∈ (scene_structure_page fs page).2.2.2 →
      d ∈ (test_scene_structure fs chars).2 := by
    intro d hdm
    have hloop := scene_structure_loop_mem fs (referencedPages chars) page hmem2 d hdm
    show _ ∈ (scene_structure_loop fs (referencedPages chars)).2.2.2 ++ _ ++ _
    exact List.mem_append.mpr (Or.inl (List.mem_append.mpr (Or.inl hloop)))
  have hscenes_true : ∀ l : List Scene, data.scenes = some l → l ≠ [] →
      hasScenesB data = true := by
    intro l hsl hlne
    rw [hasScenesB, hsl]
    cases l with
    | nil => exact absurd rfl hlne
    | cons a b => rfl
  refine ⟨?_, ?_, ?_, ?_, ?_⟩
  · intro hsc hleg
    apply herr_rule
    simp [scene_structure_page, hfind, hp, hd, hsc, hleg]
  · intro l hsl hlne s hs hbad
    apply herr_rule
    simp only [scene_structure_page, hfind, hp, hd, hscenes_true l hsl hlne, if_true,
      hsl, Option.getD_some]
    rw [scene_loop_fst]
    exact List.any_eq_true.mpr ⟨s, hs, hbad⟩
  · intro l hsl hlne j hj hsp
    apply hmem_rule
    simp only [scene_structure_page, hfind, hp, hd, hscenes_true l hsl hlne, if_true,
      hsl, Option.getD_some]
    refine List.mem_append.mpr (Or.inr ?_)
    apply scene_loop_mem page l 0 j hj
    rw [Nat.zero_add]
    simp only [scene_entry_check]
    refine List.mem_append.mpr (Or.inr ?_)
    rw [hsp]
    simp
  · intro l hsl hlne hlen
    apply hmem_rule
    simp only [scene_structure_page, hfind, hp, hd, hscenes_true l hsl hlne, if_true,
      hsl, Option.getD_some]
    refine List.mem_append.mpr (Or.inl ?_)
    have hb : (l.length != 2) = true := by simpa using hlen
    rw [hb]
    simp
  · intro hall
    rw [hfst, scene_structure_loop_fst]
    cases hany : (referencedPages chars).any (fun q => (scene_structure_page fs q).1) with
    | false => decide
    | true =>
        rcases List.any_eq_true.mp hany with ⟨q, hq, he⟩
        have h2 : (scene_structure_page fs q).1 = false := hall q hq
        rw [h2] at he
        cases he

/-- Witness for C7 at `fsOneScene`: a scenes-format page whose single scene
lacks the page side tag, so the rule warns about the missing tag and the
scene count while still needing both per-scene fields. -/
theorem C7_scene_structure_rule_witness :
    mkWarn "Page em-01.yaml scene 1 missing page field (left/right)"
      ∈ (test_scene_structure fsOneScene charsHealthy).2 ∧
    mkWarn "Page em-01.yaml has 1 scenes, expected 2 (left and right)"
      ∈ (test_scene_structure fsOneScene charsHealthy).2 := by
  have h := C7_scene_structure_rule fsOneScene charsHealthy "em-01.yaml"
    ⟨"em-01.yaml", some ⟨some ⟨none, some [⟨true, true, false⟩], false, false⟩⟩⟩
    ⟨some ⟨none, some [⟨true, true, false⟩], false, false⟩⟩
    ⟨none, some [⟨true, true, false⟩], false, false⟩
    (by decide) rfl rfl rfl
  constructor
  · have h3 := h.2.2.1 [⟨true, true, false⟩] rfl (by decide) 0 (by decide) rfl
    exact h3
  · have h4 := h.2.2.2.1 [⟨true, true, false⟩] rfl (by decide) (by decide)
    exact h4

end ValidateStructure
